import Mathlib

/-!
Shallow embedding of the persistence layer of the Cafeteria-Menu repository
(`src/database.py`): the `MenuItem` entity with its equality and completeness
predicates, and the `DatabaseManager` CRUD / search / change-detection
operations, modelled as pure state-passing functions over an explicit table
state.  Python truthiness (`if not item.image`, `if not item.id`, ...) is
modelled by explicit `truthy*` helpers; `bytes` is `List Nat`; Python `float`
prices are modelled as exact rationals `ℚ`; the MySQL store is a list of
`(id, row)` pairs plus a `categories` list, and the `JOIN` in the read path is
modelled faithfully (a row whose `category_id` has no category is invisible to
`read_menu_item`).
-/

namespace Cafeteria

/-- Error kind raised by precondition checks (`raise ValueError` in the code). -/
inductive DBErr where
  | validationError
  deriving DecidableEq, Repr

/-- `MenuItem` dataclass from `database.py` lines 25-34. -/
structure MenuItem where
  id : Option Nat
  name : String
  description : String
  price : ℚ
  category_id : Nat
  image : Option (List Nat) := none
  image_name : Option String := none
  category_name : Option String := none
  deriving DecidableEq, Repr

/-- One stored row of the `menu_items` table: the six mutable columns
(`category_name` is never stored, it is joined in on reads). -/
structure Row where
  name : String
  description : String
  price : ℚ
  category_id : Nat
  image : Option (List Nat)
  image_name : Option String
  deriving DecidableEq, Repr

/-- The store: `menu_items` keyed by id, the `categories` table, and the
auto-increment counter used for `lastrowid`. -/
structure DBState where
  menuItems : List (Nat × Row)
  categories : List (Nat × String)
  nextId : Nat
  deriving DecidableEq, Repr

/-- Python truthiness of a `str`: non-empty. -/
def truthyStr (s : String) : Bool := !s.isEmpty

/-- Python truthiness of an `Optional[bytes]`: `None` and `b""` are falsy. -/
def truthyImage : Option (List Nat) → Bool
  | none => false
  | some bs => !bs.isEmpty

/-- Python truthiness of an `Optional[int]` id: `None` and `0` are falsy. -/
def truthyId : Option Nat → Bool
  | none => false
  | some n => n != 0

/-- The integer value of an id known to be set. -/
def idVal : Option Nat → Nat
  | none => 0
  | some n => n

/-- `MenuItem.equals` (`database.py` lines 37-66): basic field comparison with
a `0.01` price tolerance, then image comparison, then `image_name` comparison
only when images match and are present. -/
def MenuItem.equals (self other : MenuItem) : Bool :=
  let basic_equality :=
    self.name == other.name &&
    self.description == other.description &&
    decide (|self.price - other.price| < 1/100) &&
    self.category_id == other.category_id
  if !basic_equality then false
  else
    let images_match :=
      match self.image, other.image with
      | none, none => true
      | some a, some b => a == b
      | _, _ => false
    if images_match && self.image.isSome then self.image_name == other.image_name
    else images_match

/-- `MenuItem.is_complete` (`database.py` lines 69-77): truthiness of `name`,
`description`, `price > 0`, `category_id`, `image`. -/
def MenuItem.is_complete (self : MenuItem) : Bool :=
  truthyStr self.name &&
  truthyStr self.description &&
  decide (0 < self.price) &&
  (self.category_id != 0) &&
  truthyImage self.image

/-- First row of `menu_items` with the given id, if any. -/
def lookupRow (st : DBState) (itemId : Nat) : Option Row :=
  (st.menuItems.find? (fun p => p.1 == itemId)).map (fun p => p.2)

/-- First category with the given id, if any. -/
def lookupCategory (st : DBState) (catId : Nat) : Option String :=
  (st.categories.find? (fun p => p.1 == catId)).map (fun p => p.2)

/-- Hydrate a stored row into a `MenuItem` with the joined `category_name`,
as the read path does (`database.py` lines 179-189). -/
def hydrate (itemId : Nat) (r : Row) (catName : String) : MenuItem :=
  { id := some itemId, name := r.name, description := r.description,
    price := r.price, category_id := r.category_id, image := r.image,
    image_name := r.image_name, category_name := some catName }

/-- `read_menu_item` (`database.py` lines 163-196): `JOIN categories` means a
row whose `category_id` has no matching category is not returned. -/
def readMenuItem (st : DBState) (itemId : Nat) : Option MenuItem :=
  match lookupRow st itemId with
  | none => none
  | some r =>
    match lookupCategory st r.category_id with
    | none => none
    | some cn => some (hydrate itemId r cn)

/-- The six mutable columns of an item, as written by INSERT/UPDATE. -/
def rowOf (item : MenuItem) : Row :=
  { name := item.name, description := item.description, price := item.price,
    category_id := item.category_id, image := item.image,
    image_name := item.image_name }

/-- `UPDATE menu_items SET ... WHERE id = %s`: replace the row with the given
id (if present) by the new column values. -/
def writeRow (st : DBState) (itemId : Nat) (r : Row) : DBState :=
  { st with menuItems :=
      st.menuItems.map (fun p => if p.1 == itemId then (itemId, r) else p) }

/-- `create_menu_item` (`database.py` lines 129-160): validation first, then
INSERT and return `lastrowid`. -/
def createMenuItem (item : MenuItem) (st : DBState) : Except DBErr Nat × DBState :=
  if !item.is_complete then (.error .validationError, st)
  else
    (.ok st.nextId,
     { st with menuItems := st.menuItems ++ [(st.nextId, rowOf item)],
               nextId := st.nextId + 1 })

/-- `delete_menu_item` (`database.py` lines 250-272): validation first, then
DELETE; result is `rowcount > 0`. -/
def deleteMenuItem (itemId : Nat) (st : DBState) : Except DBErr Bool × DBState :=
  if itemId == 0 then (.error .validationError, st)
  else
    (.ok ((lookupRow st itemId).isSome),
     { st with menuItems := st.menuItems.filter (fun p => p.1 != itemId) })

/-- The in-place image carry in `has_changes` (`database.py` lines 419-422) and
in `update_menu_item` (lines 214-218): if the candidate has no truthy image,
copy the stored image/name pair onto it. -/
def carryImage (newItem cur : MenuItem) : MenuItem :=
  if truthyImage newItem.image then newItem
  else { newItem with image := cur.image, image_name := cur.image_name }

/-- `has_changes` (`database.py` lines 409-424).  The Python code mutates
`new_item` in place; the mutated item is returned as the second component. -/
def hasChanges (itemId : Nat) (newItem : MenuItem) (st : DBState) : Bool × MenuItem :=
  match readMenuItem st itemId with
  | none => (true, newItem)
  | some cur => (!(cur.equals (carryImage newItem cur)), carryImage newItem cur)

/-- `update_menu_item` (`database.py` lines 199-247): id validation, change
detection, image carry-forward, then UPDATE; result is `rowcount > 0`.  The
third component is the caller's (possibly mutated) item object. -/
def updateMenuItem (item : MenuItem) (st : DBState) :
    Except DBErr Bool × DBState × MenuItem :=
  if !truthyId item.id then (.error .validationError, st, item)
  else
    let iid := idVal item.id
    let hc := hasChanges iid item st
    if !hc.1 then (.ok false, st, hc.2)
    else
      let item2 :=
        if truthyImage hc.2.image then hc.2
        else
          match readMenuItem st iid with
          | some cur => { hc.2 with image := cur.image, image_name := cur.image_name }
          | none => hc.2
      (.ok ((lookupRow st iid).isSome), writeRow st iid (rowOf item2), item2)

/-- Soundex digit of a letter (0 for vowels, `h`, `w`, `y` and non-letters). -/
def soundexDigit (c : Char) : Nat :=
  let c := c.toLower
  if c = 'b' ∨ c = 'f' ∨ c = 'p' ∨ c = 'v' then 1
  else if c = 'c' ∨ c = 'g' ∨ c = 'j' ∨ c = 'k' ∨ c = 'q' ∨ c = 's' ∨ c = 'x' ∨ c = 'z' then 2
  else if c = 'd' ∨ c = 't' then 3
  else if c = 'l' then 4
  else if c = 'm' ∨ c = 'n' then 5
  else if c = 'r' then 6
  else 0

/-- Soundex digit run after the first letter: adjacent equal digits collapse,
`h`/`w` are transparent, vowels separate. -/
def soundexAux : Nat → List Char → List Nat
  | _, [] => []
  | prev, c :: cs =>
    let d := soundexDigit c
    if d = 0 then
      if c.toLower = 'h' ∨ c.toLower = 'w' then soundexAux prev cs
      else soundexAux 0 cs
    else if d = prev then soundexAux prev cs
    else d :: soundexAux d cs

/-- Modelled from the spec: the store's built-in `SOUNDEX` function used by
`search_menu_items` is not part of this repository; the spec describes it as
"a coarse English-pronunciation-based encoding" / "a standard English soundex
variant": first letter retained, remaining letters coded and deduplicated,
padded to three digits. -/
def soundex (s : String) : Option (Char × List Nat) :=
  match s.toList.filter (fun c => c.isAlpha) with
  | [] => none
  | c :: cs => some (c.toUpper, ((soundexAux (soundexDigit c) cs) ++ [0, 0, 0]).take 3)

/-- Whether `needle` occurs as a contiguous run inside the second list. -/
def hasSubstr (needle : List Char) : List Char → Bool
  | [] => needle.isEmpty
  | c :: cs => needle.isPrefixOf (c :: cs) || hasSubstr needle cs

/-- Modelled from the spec: the store's `LIKE '%term%'` match under its
default case-insensitive collation is not part of this repository; the spec
describes it as "name contains term as a case-insensitive substring". -/
def likeMatch (name term : String) : Bool :=
  hasSubstr (term.toList.map Char.toLower) (name.toList.map Char.toLower)

/-- Value of a non-empty run of decimal digits, `none` otherwise. -/
def digitsVal (ds : List Char) : Option Nat :=
  if ds.isEmpty then none
  else if ds.all Char.isDigit then
    some (ds.foldl (fun acc c => acc * 10 + (c.toNat - 48)) 0)
  else none

/-- Python `int(search_term)` (`database.py` line 346), with `ValueError` as
`none`: an optional sign followed by decimal digits. -/
def parseId (term : String) : Option Int :=
  match term.toList with
  | '-' :: ds => (digitsVal ds).map (fun n => -(n : Int))
  | '+' :: ds => (digitsVal ds).map (fun n => (n : Int))
  | ds => (digitsVal ds).map (fun n => (n : Int))

/-- The WHERE clause of `search_menu_items` (`database.py` lines 354-369):
id match (when the term parses as an integer), substring match, or phonetic
match. -/
def searchMatches (term : String) (itemId : Nat) (r : Row) : Bool :=
  (match parseId term with
   | some n => (itemId : Int) == n
   | none => false) ||
  likeMatch r.name term ||
  soundex r.name == soundex term

/-- The CASE expression of the ORDER BY clause: 1 for substring matches, 2 for
phonetic matches, 3 otherwise. -/
def searchRank (term name : String) : Nat :=
  if likeMatch name term then 1
  else if soundex name == soundex term then 2
  else 3

/-- Lexicographic order on character lists (by code point), used to model the
store's ordering on lowercased names. -/
def lexLe : List Char → List Char → Bool
  | [], _ => true
  | _ :: _, [] => false
  | a :: as, b :: bs => if a = b then lexLe as bs else decide (a < b)

/-- Lowercased character list of a name, modelling the store's
case-insensitive collation key. -/
def nameKey (s : String) : List Char := s.toList.map Char.toLower

/-- The ORDER BY key order: rank first, then `name` ascending under the
store's case-insensitive collation. -/
def searchLE (term : String) (a b : MenuItem) : Prop :=
  searchRank term a.name < searchRank term b.name ∨
    (searchRank term a.name = searchRank term b.name ∧
      lexLe (nameKey a.name) (nameKey b.name) = true)

instance (term : String) : DecidableRel (searchLE term) := fun a b => by
  unfold searchLE; infer_instance

/-- One candidate row of the search result: visible through the join and
matching the WHERE clause. -/
def searchRowFn (term : String) (st : DBState) (p : Nat × Row) :
    Option MenuItem :=
  match lookupCategory st p.2.category_id with
  | none => none
  | some cn =>
    if searchMatches term p.1 p.2 then some (hydrate p.1 p.2 cn) else none

/-- `search_menu_items` (`database.py` lines 335-401): join, filter by the
WHERE clause, order by rank then name. -/
def searchMenuItems (term : String) (st : DBState) : List MenuItem :=
  List.insertionSort (searchLE term) (st.menuItems.filterMap (searchRowFn term st))

/-- The equality contract in the spec's words (§4.1), for comparison with the
code's `MenuItem.equals`: the four basic fields, images both absent or both
present with identical bytes, and `image_name` checked only when both images
are present. -/
def equalsSpec (a b : MenuItem) : Prop :=
  a.name = b.name ∧ a.description = b.description ∧
  |a.price - b.price| < 1/100 ∧ a.category_id = b.category_id ∧
  ((a.image = none ∧ b.image = none) ∨
    (∃ bs, a.image = some bs ∧ b.image = some bs ∧ a.image_name = b.image_name))

/-! Concrete sample data used to exercise the operations. -/

/-- The demo search term. -/
def latteTerm : String := "Latte"

/-- The demo category name. -/
def drinksName : String := "Drinks"

/-- Sample stored row "Latte". -/
def demoRow1 : Row :=
  { name := "Latte", description := "Espresso with milk", price := 3,
    category_id := 1, image := some [1, 2], image_name := some <| "latte.png" }

/-- Sample stored row "Latte Macchiato". -/
def demoRow2 : Row :=
  { name := "Latte Macchiato", description := "Layered", price := 4,
    category_id := 1, image := some [3], image_name := some <| "lm.png" }

/-- Sample stored row "Mocha". -/
def demoRow3 : Row :=
  { name := "Mocha", description := "Chocolate", price := 5,
    category_id := 1, image := some [4], image_name := some <| "mocha.png" }

/-- Sample store with three drinks. -/
def demoState : DBState :=
  { menuItems := [(3, demoRow3), (2, demoRow2), (1, demoRow1)],
    categories := [(1, "Drinks")], nextId := 4 }

/-- The row 1 item as the read path returns it. -/
def demoCur : MenuItem := hydrate 1 demoRow1 drinksName

/-- An incoming item equal to stored row 1 but with no image supplied. -/
def demoItemNoImg : MenuItem :=
  { id := some 1, name := "Latte", description := "Espresso with milk",
    price := 3, category_id := 1, image := none, image_name := none,
    category_name := none }

/-- An incoming item that changes row 1's price, with no image supplied. -/
def demoItemNewPrice : MenuItem := { demoItemNoImg with price := 4 }

/-- An item that is incomplete (empty name). -/
def demoIncomplete : MenuItem :=
  { id := none, name := "", description := "x", price := 1, category_id := 1,
    image := some [1], image_name := some <| "x.png" }

/-- An item carrying a present-but-empty image payload. -/
def demoEmptyImage : MenuItem :=
  { id := some 1, name := "Latte", description := "Espresso with milk",
    price := 3, category_id := 1, image := some [], image_name := some <| "e.png",
    category_name := none }

/-- A complete item used for price-tolerance tests. -/
def demoTea : MenuItem :=
  { id := some 2, name := "Tea", description := "Hot tea", price := 3,
    category_id := 1, image := some [9], image_name := some <| "tea.png",
    category_name := none }

/-! Lemmas about the entity predicates. -/

theorem equals_shape (a b : MenuItem) :
    a.equals b =
      ((a.name == b.name && a.description == b.description &&
        decide (|a.price - b.price| < 1/100) && a.category_id == b.category_id) &&
       (match a.image, b.image with
        | none, none => true
        | some x, some y => x == y && a.image_name == b.image_name
        | _, _ => false)) := by
  unfold MenuItem.equals
  cases hbasic : (a.name == b.name && a.description == b.description &&
      decide (|a.price - b.price| < 1/100) && a.category_id == b.category_id) <;>
    rcases ha : a.image with _ | x <;> rcases hb : b.image with _ | y <;>
    simp [ha, hb, hbasic] <;>
    cases hxy : (x == y : Bool) <;> simp_all

/-- If all six compared fields coincide, `equals` holds. -/
theorem equals_of_fields_eq (a b : MenuItem) (h1 : a.name = b.name)
    (h2 : a.description = b.description) (h3 : a.price = b.price)
    (h4 : a.category_id = b.category_id) (h5 : a.image = b.image)
    (h6 : a.image_name = b.image_name) : a.equals b = true := by
  rw [equals_shape, h1, h2, h3, h4, h5, h6]
  rcases b.image with _ | x <;> simp

/-- C1: `equals(a, b)` is true iff the four basic fields agree (name,
description, price within `0.01`, category_id) and the images match (both
absent, or both present with identical bytes, in which case `image_name` must
also agree); when both images are absent, `image_name` is not compared; any
other combination yields false. -/
theorem claim_C1 (a b : MenuItem) : a.equals b = true ↔ equalsSpec a b := by
  rw [equals_shape]
  unfold equalsSpec
  rcases ha : a.image with _ | x <;> rcases hb : b.image with _ | y <;>
    simp [ha, hb, Bool.and_eq_true, beq_iff_eq, decide_eq_true_eq, and_assoc]
  intros
  exact eq_comm

/-- C4: `is_complete` is true iff name and description are non-empty, the
image is present and non-empty, `category_id` is non-zero, and the price is
positive. -/
theorem claim_C4 (item : MenuItem) :
    item.is_complete = true ↔
      (item.name ≠ "" ∧ item.description ≠ "" ∧ truthyImage item.image = true ∧
        item.category_id ≠ 0 ∧ 0 < item.price) := by
  unfold MenuItem.is_complete truthyStr
  simp only [Bool.and_eq_true, Bool.not_eq_true', decide_eq_true_eq, bne_iff_ne,
    and_assoc, Bool.eq_false_iff, ne_eq, String.isEmpty_iff]
  tauto

/-- C7: for two items identical in every field except possibly `price`,
`equals` is true when the absolute price difference is at most `0.009` and
false when it is at least `0.01`. -/
theorem claim_C7 (a b : MenuItem) (h1 : a.name = b.name)
    (h2 : a.description = b.description) (h4 : a.category_id = b.category_id)
    (h5 : a.image = b.image) (h6 : a.image_name = b.image_name) :
    (|a.price - b.price| ≤ 9/1000 → a.equals b = true) ∧
      ((1/100 : ℚ) ≤ |a.price - b.price| → a.equals b = false) := by
  rw [equals_shape, h1, h2, h4, h5, h6]
  constructor
  · intro hle
    have hlt : |a.price - b.price| < (100 : ℚ)⁻¹ := by
      rw [← one_div]; exact lt_of_le_of_lt hle (by norm_num)
    rcases b.image with _ | x <;> simp [hlt]
  · intro hge
    have hlt : ¬(|a.price - b.price| < (100 : ℚ)⁻¹) := by
      rw [← one_div]; exact not_lt.mpr hge
    rcases b.image with _ | x <;> simp [hlt]

/-! Lemmas about the store operations. -/

theorem readMenuItem_eq_some {st : DBState} {iid : Nat} {cur : MenuItem}
    (h : readMenuItem st iid = some cur) :
    ∃ r cn, lookupRow st iid = some r ∧ lookupCategory st r.category_id = some cn ∧
      cur = hydrate iid r cn := by
  unfold readMenuItem at h
  rcases hr : lookupRow st iid with _ | r <;> rw [hr] at h <;> dsimp only at h
  · exact absurd h (by simp)
  rcases hc : lookupCategory st r.category_id with _ | cn <;> rw [hc] at h <;>
    dsimp only at h
  · exact absurd h (by simp)
  exact ⟨r, cn, rfl, hc, by simpa using h.symm⟩

theorem hasChanges_of_read {st : DBState} {iid : Nat} (item : MenuItem)
    {cur : MenuItem} (h : readMenuItem st iid = some cur) :
    hasChanges iid item st =
      (!(cur.equals (carryImage item cur)), carryImage item cur) := by
  unfold hasChanges
  rw [h]

theorem carryImage_id (a c : MenuItem) : (carryImage a c).id = a.id := by
  unfold carryImage; split <;> rfl

theorem carryImage_name (a c : MenuItem) : (carryImage a c).name = a.name := by
  unfold carryImage; split <;> rfl

theorem carryImage_description (a c : MenuItem) :
    (carryImage a c).description = a.description := by
  unfold carryImage; split <;> rfl

theorem carryImage_price (a c : MenuItem) : (carryImage a c).price = a.price := by
  unfold carryImage; split <;> rfl

theorem carryImage_category_id (a c : MenuItem) :
    (carryImage a c).category_id = a.category_id := by
  unfold carryImage; split <;> rfl

theorem carryImage_of_falsy {a : MenuItem} (c : MenuItem)
    (h : truthyImage a.image = false) :
    carryImage a c = { a with image := c.image, image_name := c.image_name } := by
  unfold carryImage
  rw [h]
  simp

theorem carryImage_of_fields {a c : MenuItem} (h1 : c.image = a.image)
    (h2 : c.image_name = a.image_name) : carryImage a c = a := by
  unfold carryImage
  split
  · rfl
  · rw [h1, h2]

theorem carryImage_idem (a c : MenuItem) :
    carryImage (carryImage a c) c = carryImage a c := by
  by_cases h : truthyImage a.image = true
  · have h1 : carryImage a c = a := by unfold carryImage; rw [h]; simp
    rw [h1]
    exact h1
  · have hfalse : truthyImage a.image = false := by simpa using h
    rw [carryImage_of_falsy c hfalse]
    exact carryImage_of_fields rfl rfl

theorem find?_write (l : List (Nat × Row)) (iid : Nat) (r : Row) :
    (l.map (fun p => if p.1 == iid then (iid, r) else p)).find?
        (fun p => p.1 == iid) =
      (l.find? (fun p => p.1 == iid)).map (fun _ => (iid, r)) := by
  induction l with
  | nil => rfl
  | cons a l ih =>
    rcases a with ⟨k, row⟩
    by_cases h : k = iid
    · subst h
      simp [List.find?_cons]
    · simp [List.find?_cons, h]
      simpa using ih

theorem lookupRow_writeRow_self {st : DBState} {iid : Nat} {r0 : Row} (r : Row)
    (h : lookupRow st iid = some r0) :
    lookupRow (writeRow st iid r) iid = some r := by
  unfold lookupRow writeRow at *
  simp only [find?_write]
  rcases hf : st.menuItems.find? (fun p => p.1 == iid) with _ | p
  · rw [hf] at h; simp at h
  · simp [hf]

theorem lookupCategory_writeRow (st : DBState) (iid : Nat) (r : Row) (c : Nat) :
    lookupCategory (writeRow st iid r) c = lookupCategory st c := rfl

/-- Full evaluation of `update_menu_item` when the stored row is readable. -/
theorem updateMenuItem_of_read {st : DBState} {item cur : MenuItem} {iid : Nat}
    (hid : item.id = some iid) (h0 : iid ≠ 0)
    (hread : readMenuItem st iid = some cur) :
    updateMenuItem item st =
      if cur.equals (carryImage item cur) then (.ok false, st, carryImage item cur)
      else
        let item2 :=
          if truthyImage (carryImage item cur).image then carryImage item cur
          else { carryImage item cur with
                   image := cur.image, image_name := cur.image_name }
        (.ok ((lookupRow st iid).isSome), writeRow st iid (rowOf item2), item2) := by
  have ht : truthyId item.id = true := by simp [truthyId, hid, h0]
  have hiv : idVal item.id = iid := by simp [idVal, hid]
  unfold updateMenuItem
  simp only [ht, hiv, Bool.not_true, Bool.false_eq_true, if_false]
  rw [hasChanges_of_read item hread]
  cases hq : cur.equals (carryImage item cur) <;> simp [hq, hread]

/-- When the incoming image is falsy, the item written by `update_menu_item`
carries the stored image/name pair. -/
theorem finalItem_of_falsy {item cur : MenuItem}
    (himg : truthyImage item.image = false) :
    (if truthyImage (carryImage item cur).image then carryImage item cur
     else { carryImage item cur with
              image := cur.image, image_name := cur.image_name })
      = { item with image := cur.image, image_name := cur.image_name } := by
  rw [carryImage_of_falsy _ himg]
  split <;> rfl

/-- C2: when the stored row exists and equals the incoming item (after the
stored image/name pair is carried onto an incoming item without an image),
`update` returns `false` and leaves the store untouched. -/
theorem claim_C2 (st : DBState) (item cur : MenuItem) (iid : Nat)
    (hid : item.id = some iid) (h0 : iid ≠ 0)
    (hread : readMenuItem st iid = some cur)
    (heq : cur.equals (carryImage item cur) = true) :
    (updateMenuItem item st).1 = Except.ok false ∧
      (updateMenuItem item st).2.1 = st := by
  rw [updateMenuItem_of_read hid h0 hread, if_pos heq]
  exact ⟨rfl, rfl⟩

/-- C3: an update whose incoming item has no image never erases or changes the
stored image/name pair of the row it addresses. -/
theorem claim_C3 (st : DBState) (item cur : MenuItem) (iid : Nat)
    (hid : item.id = some iid) (h0 : iid ≠ 0)
    (himg : truthyImage item.image = false)
    (hread : readMenuItem st iid = some cur) :
    (lookupRow ((updateMenuItem item st).2.1) iid).map Row.image =
        (lookupRow st iid).map Row.image ∧
      (lookupRow ((updateMenuItem item st).2.1) iid).map Row.image_name =
        (lookupRow st iid).map Row.image_name := by
  obtain ⟨r, cn, hrow, hcat, hcur⟩ := readMenuItem_eq_some hread
  rw [updateMenuItem_of_read hid h0 hread]
  by_cases hq : cur.equals (carryImage item cur) = true
  · rw [if_pos hq]
    exact ⟨rfl, rfl⟩
  · rw [if_neg hq]
    simp only [finalItem_of_falsy himg]
    rw [lookupRow_writeRow_self _ hrow, hrow]
    subst hcur
    exact ⟨rfl, rfl⟩

/-- C5: `create` on an incomplete item, `update` with a falsy id, and
`delete` with a falsy id all fail with a validation error and leave the
store unchanged. -/
theorem claim_C5 :
    (∀ (item : MenuItem) (st : DBState), item.is_complete = false →
        createMenuItem item st = (.error .validationError, st)) ∧
    (∀ (item : MenuItem) (st : DBState), truthyId item.id = false →
        updateMenuItem item st = (.error .validationError, st, item)) ∧
    (∀ st : DBState, deleteMenuItem 0 st = (.error .validationError, st)) := by
  refine ⟨fun item st h => ?_, fun item st h => ?_, fun st => ?_⟩
  · unfold createMenuItem
    rw [h]
    rfl
  · unfold updateMenuItem
    rw [h]
    rfl
  · rfl

/-- C9: `has_changes` (and hence `update`) mutates the caller's item: when the
incoming image is falsy and the stored row is readable, the caller's item ends
up holding the stored image/name pair, whatever the update returned. -/
theorem claim_C9 (st : DBState) (item cur : MenuItem) (iid : Nat)
    (hid : item.id = some iid) (h0 : iid ≠ 0)
    (himg : truthyImage item.image = false)
    (hread : readMenuItem st iid = some cur) :
    (hasChanges iid item st).2.image = cur.image ∧
    (hasChanges iid item st).2.image_name = cur.image_name ∧
    (updateMenuItem item st).2.2.image = cur.image ∧
    (updateMenuItem item st).2.2.image_name = cur.image_name := by
  have hcf := carryImage_of_falsy (a := item) cur himg
  refine ⟨?_, ?_, ?_, ?_⟩
  · rw [hasChanges_of_read item hread]
    rw [show (!(cur.equals (carryImage item cur)), carryImage item cur).2
          = carryImage item cur from rfl, hcf]
  · rw [hasChanges_of_read item hread]
    rw [show (!(cur.equals (carryImage item cur)), carryImage item cur).2
          = carryImage item cur from rfl, hcf]
  · rw [updateMenuItem_of_read hid h0 hread]
    by_cases hq : cur.equals (carryImage item cur) = true
    · rw [if_pos hq]
      rw [show ((Except.ok false : Except DBErr Bool), st, carryImage item cur).2.2
            = carryImage item cur from rfl, hcf]
    · rw [if_neg hq]
      simp only [finalItem_of_falsy himg]
  · rw [updateMenuItem_of_read hid h0 hread]
    by_cases hq : cur.equals (carryImage item cur) = true
    · rw [if_pos hq]
      rw [show ((Except.ok false : Except DBErr Bool), st, carryImage item cur).2.2
            = carryImage item cur from rfl, hcf]
    · rw [if_neg hq]
      simp only [finalItem_of_falsy himg]

/-- C10: a present-but-empty image is treated exactly like an absent one by
every truthiness guard: `is_complete` rejects it, `create` fails validation,
and the carry-forward copies in `has_changes`/`update` fire just as for a
null image. -/
theorem claim_C10 (st : DBState) (item cur : MenuItem) (iid : Nat)
    (himg : item.image = some []) :
    item.is_complete = false ∧
    createMenuItem item st = (.error .validationError, st) ∧
    truthyImage item.image = truthyImage none ∧
    (readMenuItem st iid = some cur →
      (hasChanges iid item st).2.image = cur.image ∧
      (hasChanges iid item st).2.image_name = cur.image_name ∧
      hasChanges iid item st = hasChanges iid { item with image := none } st ∧
      (item.id = some iid → iid ≠ 0 →
        updateMenuItem item st = updateMenuItem { item with image := none } st)) := by
  have hfalsy : truthyImage item.image = false := by rw [himg]; rfl
  have hcomplete : item.is_complete = false := by
    unfold MenuItem.is_complete
    rw [hfalsy]
    simp
  have hcarry : carryImage item cur = carryImage { item with image := none } cur := by
    rw [carryImage_of_falsy cur hfalsy,
      carryImage_of_falsy cur (show truthyImage ({ item with image := none } :
        MenuItem).image = false from rfl)]
  refine ⟨hcomplete, ?_, by rw [hfalsy]; rfl, fun hread => ⟨?_, ?_, ?_, ?_⟩⟩
  · unfold createMenuItem
    rw [hcomplete]
    rfl
  · rw [hasChanges_of_read item hread]
    rw [show (!(cur.equals (carryImage item cur)), carryImage item cur).2
          = carryImage item cur from rfl, carryImage_of_falsy cur hfalsy]
  · rw [hasChanges_of_read item hread]
    rw [show (!(cur.equals (carryImage item cur)), carryImage item cur).2
          = carryImage item cur from rfl, carryImage_of_falsy cur hfalsy]
  · rw [hasChanges_of_read item hread, hasChanges_of_read _ hread, hcarry]
  · intro hid h0
    rw [updateMenuItem_of_read hid h0 hread,
      updateMenuItem_of_read (show ({ item with image := none } :
        MenuItem).id = some iid from hid) h0 hread, hcarry]

theorem finalItem_id (item cur : MenuItem) :
    (if truthyImage (carryImage item cur).image then carryImage item cur
     else { carryImage item cur with
              image := cur.image, image_name := cur.image_name }).id
      = item.id := by
  split
  · exact carryImage_id item cur
  · exact carryImage_id item cur

theorem finalItem_category_id (item cur : MenuItem) :
    (if truthyImage (carryImage item cur).image then carryImage item cur
     else { carryImage item cur with
              image := cur.image, image_name := cur.image_name }).category_id
      = item.category_id := by
  split
  · exact carryImage_category_id item cur
  · exact carryImage_category_id item cur

/-- A hydrated copy of an item's own columns is `equals`-equal to the item
after the image carry. -/
theorem equals_hydrate_rowOf (iid : Nat) (a : MenuItem) (cn : String) :
    (hydrate iid (rowOf a) cn).equals
      (carryImage a (hydrate iid (rowOf a) cn)) = true := by
  rw [carryImage_of_fields
    (show (hydrate iid (rowOf a) cn).image = a.image from rfl)
    (show (hydrate iid (rowOf a) cn).image_name = a.image_name from rfl)]
  exact equals_of_fields_eq _ _ rfl rfl rfl rfl rfl rfl

/-- If the stored row holds exactly the item's own columns, `update` detects
no changes and returns `false`. -/
theorem update_noop_of_stored (st2 : DBState) (a : MenuItem) (iid : Nat)
    (cn2 : String) (hid : a.id = some iid) (h0 : iid ≠ 0)
    (hread2 : readMenuItem st2 iid = some (hydrate iid (rowOf a) cn2)) :
    (updateMenuItem a st2).1 = Except.ok false := by
  rw [updateMenuItem_of_read hid h0 hread2,
    if_pos (equals_hydrate_rowOf iid a cn2)]

/-- After writing an item's columns, updating again with that item is a
no-op. -/
theorem update_then_noop (st : DBState) (item2 : MenuItem) (iid : Nat)
    (r0 : Row) (cn2 : String) (hid2 : item2.id = some iid) (h0 : iid ≠ 0)
    (hrow : lookupRow st iid = some r0)
    (hcat2 : lookupCategory st item2.category_id = some cn2) :
    (updateMenuItem item2 (writeRow st iid (rowOf item2))).1 =
      Except.ok false := by
  have hread2 : readMenuItem (writeRow st iid (rowOf item2)) iid
      = some (hydrate iid (rowOf item2) cn2) := by
    unfold readMenuItem
    rw [lookupRow_writeRow_self _ hrow]
    dsimp only
    rw [show (rowOf item2).category_id = item2.category_id from rfl,
      lookupCategory_writeRow, hcat2]
  exact update_noop_of_stored _ _ iid cn2 hid2 h0 hread2

/-- C8: calling `update` twice in succession with the same item: after the
first call (whether it wrote or not), the second call detects no changes and
returns `false`. -/
theorem claim_C8 (st : DBState) (item cur : MenuItem) (iid : Nat)
    (hid : item.id = some iid) (h0 : iid ≠ 0)
    (hread : readMenuItem st iid = some cur)
    (hcati : (lookupCategory st item.category_id).isSome = true) :
    (updateMenuItem ((updateMenuItem item st).2.2)
        ((updateMenuItem item st).2.1)).1 = Except.ok false := by
  obtain ⟨r, cn, hrow, hcatr, hcur⟩ := readMenuItem_eq_some hread
  obtain ⟨cn2, hcn2⟩ := Option.isSome_iff_exists.mp hcati
  rw [updateMenuItem_of_read hid h0 hread]
  by_cases hq : cur.equals (carryImage item cur) = true
  · rw [if_pos hq]
    dsimp only
    have hid1 : (carryImage item cur).id = some iid := by
      rw [carryImage_id]; exact hid
    rw [updateMenuItem_of_read hid1 h0 hread, carryImage_idem, if_pos hq]
  · rw [if_neg hq]
    dsimp only
    refine update_then_noop st _ iid r cn2 ?_ h0 hrow ?_
    · rw [finalItem_id]; exact hid
    · rw [finalItem_category_id]; exact hcn2

/-! Lemmas about the search ranking. -/

theorem lexLe_total : ∀ x y : List Char, lexLe x y = true ∨ lexLe y x = true
  | [], _ => Or.inl rfl
  | _ :: _, [] => Or.inr rfl
  | a :: as, b :: bs => by
    by_cases hab : a = b
    · subst hab
      simpa [lexLe] using lexLe_total as bs
    · rcases lt_or_gt_of_ne hab with h | h
      · exact Or.inl (by simp [lexLe, hab, h])
      · exact Or.inr (by simp [lexLe, Ne.symm hab, h])

theorem lexLe_trans :
    ∀ x y z : List Char, lexLe x y = true → lexLe y z = true → lexLe x z = true
  | [], _, _, _, _ => rfl
  | _ :: _, [], _, h1, _ => by simp [lexLe] at h1
  | _ :: _, _ :: _, [], _, h2 => by simp [lexLe] at h2
  | a :: as, b :: bs, c :: cs, h1, h2 => by
    by_cases hab : a = b <;> by_cases hbc : b = c
    · subst hab; subst hbc
      rw [lexLe, if_pos rfl] at h1 h2 ⊢
      exact lexLe_trans as bs cs h1 h2
    · subst hab
      rw [lexLe, if_pos rfl] at h1
      rw [lexLe, if_neg hbc] at h2 ⊢
      exact h2
    · subst hbc
      rw [lexLe, if_neg hab] at h1 ⊢
      exact h1
    · rw [lexLe, if_neg hab] at h1
      rw [lexLe, if_neg hbc] at h2
      have hac : a < c := lt_trans (of_decide_eq_true h1) (of_decide_eq_true h2)
      rw [lexLe, if_neg (ne_of_lt hac)]
      exact decide_eq_true hac

theorem searchLE_total (term : String) (a b : MenuItem) :
    searchLE term a b ∨ searchLE term b a := by
  unfold searchLE
  rcases lt_trichotomy (searchRank term a.name) (searchRank term b.name) with
    h | h | h
  · exact Or.inl (Or.inl h)
  · rcases lexLe_total (nameKey a.name) (nameKey b.name) with hl | hl
    · exact Or.inl (Or.inr ⟨h, hl⟩)
    · exact Or.inr (Or.inr ⟨h.symm, hl⟩)
  · exact Or.inr (Or.inl h)

theorem searchLE_trans (term : String) (a b c : MenuItem)
    (h1 : searchLE term a b) (h2 : searchLE term b c) : searchLE term a c := by
  rcases h1 with h1 | ⟨h1, h1l⟩ <;> rcases h2 with h2 | ⟨h2, h2l⟩
  · exact Or.inl (lt_trans h1 h2)
  · exact Or.inl (h2 ▸ h1)
  · exact Or.inl (h1 ▸ h2)
  · exact Or.inr ⟨h1.trans h2, lexLe_trans _ _ _ h1l h2l⟩

theorem searchRowFn_eq_some {term : String} {st : DBState} {p : Nat × Row}
    {c : MenuItem} (h : searchRowFn term st p = some c) :
    ∃ cn, lookupCategory st p.2.category_id = some cn ∧
      searchMatches term p.1 p.2 = true ∧ c = hydrate p.1 p.2 cn := by
  unfold searchRowFn at h
  rcases hc : lookupCategory st p.2.category_id with _ | cn <;> rw [hc] at h <;>
    dsimp only at h
  · exact absurd h (by simp)
  by_cases hm : searchMatches term p.1 p.2 = true
  · rw [if_pos hm] at h
    exact ⟨cn, rfl, hm, by simpa using h.symm⟩
  · rw [if_neg hm] at h
    exact absurd h (by simp)

theorem hydrate_inj {i1 i2 : Nat} {r1 r2 : Row} {cn1 cn2 : String}
    (h : hydrate i1 r1 cn1 = hydrate i2 r2 cn2) :
    i1 = i2 ∧ r1 = r2 ∧ cn1 = cn2 := by
  rcases r1 with ⟨n1, d1, p1, c1, im1, m1⟩
  rcases r2 with ⟨n2, d2, p2, c2, im2, m2⟩
  simp only [hydrate, MenuItem.mk.injEq, Option.some_inj] at h
  obtain ⟨ha, hb, hc, hd, he, hf, hg, hh⟩ := h
  refine ⟨ha, ?_, hh⟩
  simp_all

theorem searchRowFn_inj (term : String) (st : DBState) (a b : Nat × Row)
    (c : MenuItem) (hac : c ∈ searchRowFn term st a)
    (hbc : c ∈ searchRowFn term st b) : a = b := by
  obtain ⟨cn1, _, _, hc1⟩ := searchRowFn_eq_some (Option.mem_def.mp hac)
  obtain ⟨cn2, _, _, hc2⟩ := searchRowFn_eq_some (Option.mem_def.mp hbc)
  obtain ⟨hi, hr, _⟩ := hydrate_inj (hc1.symm.trans hc2)
  exact Prod.ext hi hr

/-- C6: for every search term, the result list is sorted by rank (substring
match, then phonetic-only match, then id-only match) and then by name; under
the primary-key invariant every matching visible row appears exactly once; and
on the "Latte"/"Latte Macchiato"/"Mocha" store, searching "Latte" returns
exactly ["Latte", "Latte Macchiato"] in that order, excluding "Mocha". -/
theorem claim_C6 (term : String) (st : DBState)
    (hnodup : (st.menuItems.map Prod.fst).Nodup) :
    List.Sorted (searchLE term) (searchMenuItems term st) ∧
    (∀ p ∈ st.menuItems, ∀ cn, lookupCategory st p.2.category_id = some cn →
      searchMatches term p.1 p.2 = true →
      (searchMenuItems term st).count (hydrate p.1 p.2 cn) = 1) ∧
    (searchMenuItems latteTerm demoState).map MenuItem.name =
      ["Latte", "Latte Macchiato"] := by
  haveI : IsTotal MenuItem (searchLE term) := ⟨searchLE_total term⟩
  haveI : IsTrans MenuItem (searchLE term) := ⟨searchLE_trans term⟩
  refine ⟨List.sorted_insertionSort _ _, fun p hp cn hcat hmatch => ?_, by decide⟩
  have hperm : List.Perm (searchMenuItems term st)
      (st.menuItems.filterMap (searchRowFn term st)) :=
    List.perm_insertionSort _ _
  rw [hperm.count_eq]
  have hnd : (st.menuItems.filterMap (searchRowFn term st)).Nodup :=
    List.Nodup.filterMap (searchRowFn_inj term st) (hnodup.of_map)
  have hmem : hydrate p.1 p.2 cn ∈ st.menuItems.filterMap (searchRowFn term st) := by
    refine List.mem_filterMap.mpr ⟨p, hp, ?_⟩
    unfold searchRowFn
    rw [hcat]
    dsimp only
    rw [if_pos hmatch]
  exact List.count_eq_one_of_mem hnd hmem

/-! Witnesses: each hypothesis-bearing claim theorem applied at concrete
inputs. -/

theorem claim_C2_witness :
    (updateMenuItem demoItemNoImg demoState).1 = Except.ok false ∧
      (updateMenuItem demoItemNoImg demoState).2.1 = demoState :=
  claim_C2 demoState demoItemNoImg demoCur 1 rfl (by decide) rfl
    (equals_of_fields_eq _ _ rfl rfl rfl rfl rfl rfl)

theorem claim_C3_witness :
    (lookupRow ((updateMenuItem demoItemNewPrice demoState).2.1) 1).map
        Row.image = (lookupRow demoState 1).map Row.image ∧
      (lookupRow ((updateMenuItem demoItemNewPrice demoState).2.1) 1).map
        Row.image_name = (lookupRow demoState 1).map Row.image_name :=
  claim_C3 demoState demoItemNewPrice demoCur 1 rfl (by decide) rfl rfl

theorem claim_C5_witness :
    createMenuItem demoIncomplete demoState =
      (.error .validationError, demoState) ∧
    updateMenuItem { demoTea with id := none } demoState =
      (.error .validationError, demoState, { demoTea with id := none }) ∧
    deleteMenuItem 0 demoState = (.error .validationError, demoState) :=
  ⟨claim_C5.1 demoIncomplete demoState (by decide),
   claim_C5.2.1 { demoTea with id := none } demoState rfl,
   claim_C5.2.2 demoState⟩

theorem claim_C6_witness :
    List.Sorted (searchLE latteTerm) (searchMenuItems latteTerm demoState) ∧
    (searchMenuItems latteTerm demoState).count (hydrate 1 demoRow1 drinksName) = 1 ∧
    (searchMenuItems latteTerm demoState).map MenuItem.name =
      ["Latte", "Latte Macchiato"] :=
  ⟨(claim_C6 latteTerm demoState (by decide)).1,
   (claim_C6 latteTerm demoState (by decide)).2.1 (1, demoRow1) (by decide)
     drinksName rfl (by decide),
   (claim_C6 latteTerm demoState (by decide)).2.2⟩

theorem claim_C7_witness :
    demoTea.equals { demoTea with price := 3 + 9/1000 } = true ∧
      demoTea.equals { demoTea with price := 4 } = false :=
  ⟨(claim_C7 demoTea { demoTea with price := 3 + 9/1000 }
      rfl rfl rfl rfl rfl).1
      (by
        have hd : demoTea.price -
            ({ demoTea with price := 3 + 9/1000 } : MenuItem).price =
              -(9/1000) := by
          show (3 : ℚ) - (3 + 9/1000) = -(9/1000)
          ring
        rw [hd, abs_neg, abs_of_nonneg (by norm_num)]),
   (claim_C7 demoTea { demoTea with price := 4 } rfl rfl rfl rfl rfl).2
      (by
        have hd : demoTea.price -
            ({ demoTea with price := 4 } : MenuItem).price = -1 := by
          show (3 : ℚ) - 4 = -1
          norm_num
        rw [hd, abs_neg, abs_one]
        norm_num)⟩

theorem claim_C8_witness :
    (updateMenuItem ((updateMenuItem demoItemNewPrice demoState).2.2)
        ((updateMenuItem demoItemNewPrice demoState).2.1)).1 =
      Except.ok false :=
  claim_C8 demoState demoItemNewPrice demoCur 1 rfl (by decide) rfl (by decide)

theorem claim_C9_witness :
    (hasChanges 1 demoItemNewPrice demoState).2.image = demoCur.image ∧
    (hasChanges 1 demoItemNewPrice demoState).2.image_name =
      demoCur.image_name ∧
    (updateMenuItem demoItemNewPrice demoState).2.2.image = demoCur.image ∧
    (updateMenuItem demoItemNewPrice demoState).2.2.image_name =
      demoCur.image_name :=
  claim_C9 demoState demoItemNewPrice demoCur 1 rfl (by decide) rfl rfl

theorem claim_C10_witness :
    demoEmptyImage.is_complete = false ∧
    createMenuItem demoEmptyImage demoState =
      (.error .validationError, demoState) ∧
    truthyImage demoEmptyImage.image = truthyImage none ∧
    (hasChanges 1 demoEmptyImage demoState).2.image = demoCur.image ∧
    (hasChanges 1 demoEmptyImage demoState).2.image_name =
      demoCur.image_name ∧
    hasChanges 1 demoEmptyImage demoState =
      hasChanges 1 { demoEmptyImage with image := none } demoState ∧
    updateMenuItem demoEmptyImage demoState =
      updateMenuItem { demoEmptyImage with image := none } demoState := by
  obtain ⟨h1, h2, h3, h4⟩ := claim_C10 demoState demoEmptyImage demoCur 1 rfl
  obtain ⟨h5, h6, h7, h8⟩ := h4 rfl
  exact ⟨h1, h2, h3, h5, h6, h7, h8 rfl (by decide)⟩

end Cafeteria
